import Mathlib

/-!
Verification of the scheduling core of the Appointment-Scheduling-System
repository (FastAPI/SQLModel).  The relevant handlers live in
app/api/v1/appointments.py and app/api/v1/availability.py; the data model
in app/models.  Timestamps are modelled as integer microseconds (the
resolution of Python datetime); times-of-day as integer microseconds since
midnight; dates as integer day numbers since the Unix epoch.
-/

/-- Microseconds in one day. -/
def usPerDay : Int := 86400000000

/-- Microseconds in two hours, the reschedule/update cutoff
(timedelta(hours=2) in the handlers). -/
def twoHoursUs : Int := 7200000000

/-- Day number of a timestamp, mirroring datetime.date() (floor division,
one day = 86400000000 microseconds). -/
def dateOf (t : Int) : Int := t.fdiv usPerDay

/-- Time of day of a timestamp in microseconds, mirroring datetime.time(). -/
def timeOfDay (t : Int) : Int := t % usPerDay

/-- Python weekday (Monday = 0) of a day number.  Day 0 = 1970-01-01 was a
Thursday, weekday 3. -/
def weekdayOfDay (d : Int) : Int := (d + 3) % 7

/-- Python weekday of a timestamp, mirroring datetime.weekday(). -/
def weekdayOf (t : Int) : Int := weekdayOfDay (dateOf t)

/-- AppointmentStatus enum from app/models/appointment.py. -/
inductive AppointmentStatus where
  | scheduled
  | cancelled
  | completed
  | no_show
deriving DecidableEq, Repr

/-- UserRole enum from app/models/user.py. -/
inductive UserRole where
  | admin
  | staff
  | client
deriving DecidableEq, Repr

/-- User row; only the fields the scheduling handlers read are modelled
(email, full_name and password are used for notification and auth only).
no_show_count and is_blocked are the per-client no-show record fields the
appointment handlers read and write. -/
structure User where
  id : Nat
  role : UserRole
  no_show_count : Nat
  is_blocked : Bool
deriving DecidableEq, Repr

/-- Appointment row from app/models/appointment.py. -/
structure Appointment where
  id : Nat
  client_id : Nat
  staff_id : Nat
  start_time : Int
  end_time : Int
  notes : Option String
  status : AppointmentStatus
deriving DecidableEq, Repr

/-- Availability row from app/models/availability.py: either a recurring
weekday rule or a specific-date rule, with a time-of-day window. -/
structure Availability where
  staff_id : Nat
  day_of_week : Option Int
  specific_date : Option Int
  start_time : Int
  end_time : Int
  is_recurring : Bool
deriving DecidableEq, Repr

/-- Request body of POST /appointments (AppointmentCreate).  It inherits a
status field from AppointmentBase, which the handler ignores. -/
structure AppointmentCreate where
  staff_id : Nat
  start_time : Int
  end_time : Int
  notes : Option String
  status : AppointmentStatus
deriving DecidableEq, Repr

/-- Patch body of PATCH /appointments/id (AppointmentUpdate); a none field
is absent from the patch (pydantic exclude_unset). -/
structure AppointmentUpdate where
  start_time : Option Int
  end_time : Option Int
  notes : Option String
  status : Option AppointmentStatus
deriving DecidableEq, Repr

/-- Body of POST /appointments/id/reschedule (AppointmentReschedule). -/
structure AppointmentReschedule where
  new_start_time : Int
  new_end_time : Int
  reason : Option String
deriving DecidableEq, Repr

/-- Database state seen by the handlers: the three tables plus the next
auto-increment appointment id. -/
structure SysState where
  appts : List Appointment
  users : List User
  avails : List Availability
  nextId : Nat
deriving DecidableEq, Repr

/-- HTTPException outcomes of the handlers, one constructor per distinct
raise site that the modelled operations can reach. -/
inductive ApiError where
  | blocked
  | staffUnavailable
  | notFound
  | permission
  | cutoff
  | invalidStatus
  | conflictAtNewTime
  | outsideAvailability
  | futureAppointment
deriving DecidableEq, Repr

/-- The three-clause SQL overlap filter used in is_staff_available and in
reschedule_appointment (appointments.py lines 33-37 and 208-212): the
existing appointment has interval (aStart, aEnd), the candidate (s, e). -/
def overlapTest (aStart aEnd s e : Int) : Bool :=
  (decide (aStart ≤ s) && decide (aEnd > s)) ||
  (decide (aStart < e) && decide (aEnd ≥ e)) ||
  (decide (aStart ≥ s) && decide (aEnd ≤ e))

/-- First SQL filter of is_staff_available: some SCHEDULED appointment of
the staff member passes the three-clause overlap test. -/
def hasOverlappingAppointment (appts : List Appointment) (staff : Nat)
    (s e : Int) : Bool :=
  appts.any fun a =>
    decide (a.staff_id = staff) && decide (a.status = AppointmentStatus.scheduled) &&
      overlapTest a.start_time a.end_time s e

/-- Availability rows selected for a staff member and a date: specific-date
match, or recurring rule on the same weekday (the or_ in the SQL query). -/
def selectAvailabilities (avails : List Availability) (staff : Nat)
    (dayNum dow : Int) : List Availability :=
  avails.filter fun av =>
    decide (av.staff_id = staff) &&
      (decide (av.specific_date = some dayNum) ||
        (decide (av.day_of_week = some dow) && av.is_recurring))

/-- Second half of is_staff_available: some selected availability window
contains the candidate times-of-day (avail.start_time <= start.time() and
avail.end_time >= end.time()); day and weekday are taken from start only. -/
def availabilityCovers (avails : List Availability) (staff : Nat)
    (s e : Int) : Bool :=
  (selectAvailabilities avails staff (dateOf s) (weekdayOf s)).any fun av =>
    decide (av.start_time ≤ timeOfDay s) && decide (timeOfDay e ≤ av.end_time)

/-- is_staff_available from appointments.py lines 26-67: false if an
overlapping SCHEDULED appointment exists, otherwise true iff an availability
window covers the candidate interval. -/
def is_staff_available (appts : List Appointment) (avails : List Availability)
    (staff : Nat) (s e : Int) : Bool :=
  if hasOverlappingAppointment appts staff s e then false
  else availabilityCovers avails staff s e

/-- Primary-key lookup of an appointment, mirroring session.get(Appointment, id). -/
def findAppointment (σ : SysState) (id : Nat) : Option Appointment :=
  σ.appts.find? fun a => decide (a.id = id)

/-- Primary-key lookup of a user, mirroring session.get(User, id). -/
def findUser (σ : SysState) (uid : Nat) : Option User :=
  σ.users.find? fun u => decide (u.id = uid)

/-- create_appointment (appointments.py lines 69-120): reject a blocked
client, reject when is_staff_available fails, otherwise insert a new
appointment with status SCHEDULED and client_id of the caller.  There is no
check that end_time is after start_time.  The notification side effects are
out of scope. -/
def create_appointment (σ : SysState) (inp : AppointmentCreate)
    (current_user : User) : Except ApiError (SysState × Appointment) :=
  if current_user.is_blocked then .error .blocked
  else if ¬ is_staff_available σ.appts σ.avails inp.staff_id inp.start_time inp.end_time then
    .error .staffUnavailable
  else
    let db_obj : Appointment :=
      { id := σ.nextId, client_id := current_user.id, staff_id := inp.staff_id,
        start_time := inp.start_time, end_time := inp.end_time,
        notes := inp.notes, status := .scheduled }
    .ok ({ σ with appts := σ.appts ++ [db_obj], nextId := σ.nextId + 1 }, db_obj)

/-- Application of an AppointmentUpdate patch: setattr for each field present
in the patch (dict(exclude_unset=True)). -/
def applyUpdate (a : Appointment) (p : AppointmentUpdate) : Appointment :=
  { a with
    start_time := p.start_time.getD a.start_time,
    end_time := p.end_time.getD a.end_time,
    notes := match p.notes with | some n => some n | none => a.notes,
    status := p.status.getD a.status }

/-- update_appointment (appointments.py lines 139-170): not-found check,
permission check, two-hour cutoff against the current start time, then the
patch is applied field by field with no conflict, availability or status
validation of any kind. -/
def update_appointment (σ : SysState) (id : Nat) (patch : AppointmentUpdate)
    (current_user : User) (now : Int) : Except ApiError (SysState × Appointment) :=
  match findAppointment σ id with
  | none => .error .notFound
  | some db_obj =>
    if current_user.role ≠ .admin ∧ db_obj.client_id ≠ current_user.id ∧
        db_obj.staff_id ≠ current_user.id then .error .permission
    else if db_obj.start_time - now < twoHoursUs then .error .cutoff
    else
      .ok ({ σ with appts := σ.appts.map fun b =>
              if b.id = id then applyUpdate b patch else b },
           applyUpdate db_obj patch)

/-- In-place time change performed by a successful reschedule: new times,
and the reason, when given, appended to the notes. -/
def rescheduleUpd (r : AppointmentReschedule) (b : Appointment) : Appointment :=
  { b with
    start_time := r.new_start_time, end_time := r.new_end_time,
    notes := match r.reason with
      | some reason =>
          some ((b.notes.getD "") ++ "\x0a[Rescheduled: " ++ reason ++ "]")
      | none => b.notes }

/-- Conflict filter of reschedule_appointment: another SCHEDULED appointment
of the staff member (the rescheduled id excluded) passes the three-clause
overlap test against the new interval. -/
def rescheduleConflict (appts : List Appointment) (staff id : Nat)
    (r : AppointmentReschedule) : Bool :=
  appts.any fun a =>
    decide (a.staff_id = staff) && decide (a.id ≠ id) &&
    decide (a.status = AppointmentStatus.scheduled) &&
    overlapTest a.start_time a.end_time r.new_start_time r.new_end_time

/-- reschedule_appointment (appointments.py lines 172-293): not-found,
permission, SCHEDULED-only, two-hour cutoff, conflict check against the
other SCHEDULED appointments of the staff member (id excluded), availability
window check for the new interval, then the times are updated in place and
the reason, when given, appended to the notes. -/
def reschedule_appointment (σ : SysState) (id : Nat)
    (r : AppointmentReschedule) (current_user : User) (now : Int) :
    Except ApiError (SysState × Appointment) :=
  match findAppointment σ id with
  | none => .error .notFound
  | some db_obj =>
    if current_user.role ≠ .admin ∧ db_obj.client_id ≠ current_user.id ∧
        db_obj.staff_id ≠ current_user.id then .error .permission
    else if db_obj.status ≠ .scheduled then .error .invalidStatus
    else if db_obj.start_time - now < twoHoursUs then .error .cutoff
    else if rescheduleConflict σ.appts db_obj.staff_id id r then
      .error .conflictAtNewTime
    else if ¬ availabilityCovers σ.avails db_obj.staff_id r.new_start_time
        r.new_end_time then .error .outsideAvailability
    else
      .ok ({ σ with appts := σ.appts.map fun b =>
              if b.id = id then rescheduleUpd r b else b },
           rescheduleUpd r db_obj)

/-- Per-user effect of a no-show on the client row with the given id: the
count is incremented by one and the client is blocked once the new count
reaches 3 (appointments.py lines 448-457). -/
def noShowUserUpd (tcid : Nat) (v : User) : User :=
  if v.id = tcid then
    { v with
      no_show_count := v.no_show_count + 1,
      is_blocked := if v.no_show_count + 1 ≥ 3 then true else v.is_blocked }
  else v

/-- mark_appointment_no_show (appointments.py lines 416-462): role check
(admin or staff, the check_role dependency), not-found, assigned-staff
permission, SCHEDULED-only, start time must have passed; then the status is
set to NO_SHOW, the client's no_show_count incremented by one and the client
blocked once the count reaches 3. -/
def mark_appointment_no_show (σ : SysState) (id : Nat) (current_user : User)
    (now : Int) : Except ApiError (SysState × Appointment) :=
  if current_user.role ≠ .admin ∧ current_user.role ≠ .staff then .error .permission
  else match findAppointment σ id with
  | none => .error .notFound
  | some db_obj =>
    if current_user.role ≠ .admin ∧ db_obj.staff_id ≠ current_user.id then
      .error .permission
    else if db_obj.status ≠ .scheduled then .error .invalidStatus
    else if db_obj.start_time > now then .error .futureAppointment
    else
      let appts := σ.appts.map fun b =>
        if b.id = id then { b with status := AppointmentStatus.no_show } else b
      let users := match findUser σ db_obj.client_id with
        | none => σ.users
        | some _ => σ.users.map (noShowUserUpd db_obj.client_id)
      .ok ({ σ with appts := appts, users := users },
           { db_obj with status := AppointmentStatus.no_show })

/-- mark_appointment_completed (appointments.py lines 464-495): role check,
not-found, assigned-staff permission, SCHEDULED-only, start time must have
passed; then the status is set to COMPLETED. -/
def mark_appointment_completed (σ : SysState) (id : Nat) (current_user : User)
    (now : Int) : Except ApiError (SysState × Appointment) :=
  if current_user.role ≠ .admin ∧ current_user.role ≠ .staff then .error .permission
  else match findAppointment σ id with
  | none => .error .notFound
  | some db_obj =>
    if current_user.role ≠ .admin ∧ db_obj.staff_id ≠ current_user.id then
      .error .permission
    else if db_obj.status ≠ .scheduled then .error .invalidStatus
    else if db_obj.start_time > now then .error .futureAppointment
    else
      .ok ({ σ with appts := σ.appts.map fun b =>
              if b.id = id then { b with status := AppointmentStatus.completed } else b },
           { db_obj with status := AppointmentStatus.completed })

/-- One mutating request of the full lifecycle, update included: the state
transition relation generated by the five handlers, for any caller and any
call time. -/
inductive LStep : SysState → SysState → Prop where
  | create {σ σ' : SysState} {inp : AppointmentCreate} {u : User} {a : Appointment} :
      create_appointment σ inp u = .ok (σ', a) → LStep σ σ'
  | update {σ σ' : SysState} {id : Nat} {patch : AppointmentUpdate} {u : User}
      {now : Int} {a : Appointment} :
      update_appointment σ id patch u now = .ok (σ', a) → LStep σ σ'
  | reschedule {σ σ' : SysState} {id : Nat} {r : AppointmentReschedule} {u : User}
      {now : Int} {a : Appointment} :
      reschedule_appointment σ id r u now = .ok (σ', a) → LStep σ σ'
  | noShow {σ σ' : SysState} {id : Nat} {u : User} {now : Int} {a : Appointment} :
      mark_appointment_no_show σ id u now = .ok (σ', a) → LStep σ σ'
  | completed {σ σ' : SysState} {id : Nat} {u : User} {now : Int} {a : Appointment} :
      mark_appointment_completed σ id u now = .ok (σ', a) → LStep σ σ'

/-- One mutating request by any handler except update_appointment. -/
inductive CoreStep : SysState → SysState → Prop where
  | create {σ σ' : SysState} {inp : AppointmentCreate} {u : User} {a : Appointment} :
      create_appointment σ inp u = .ok (σ', a) → CoreStep σ σ'
  | reschedule {σ σ' : SysState} {id : Nat} {r : AppointmentReschedule} {u : User}
      {now : Int} {a : Appointment} :
      reschedule_appointment σ id r u now = .ok (σ', a) → CoreStep σ σ'
  | noShow {σ σ' : SysState} {id : Nat} {u : User} {now : Int} {a : Appointment} :
      mark_appointment_no_show σ id u now = .ok (σ', a) → CoreStep σ σ'
  | completed {σ σ' : SysState} {id : Nat} {u : User} {now : Int} {a : Appointment} :
      mark_appointment_completed σ id u now = .ok (σ', a) → CoreStep σ σ'

/-- Central invariant of the spec: two distinct SCHEDULED appointments of
the same staff member never overlap in time (nonempty intersection of the
half-open intervals). -/
def NoOverlapInv (σ : SysState) : Prop :=
  ∀ a ∈ σ.appts, ∀ b ∈ σ.appts, a.id ≠ b.id → a.staff_id = b.staff_id →
    a.status = AppointmentStatus.scheduled → b.status = AppointmentStatus.scheduled →
    ¬ (a.start_time < b.end_time ∧ b.start_time < a.end_time)

/-- Auto-increment discipline: every stored id is below the next id. -/
def IdsFresh (σ : SysState) : Prop := ∀ a ∈ σ.appts, a.id < σ.nextId

/-- Primary-key uniqueness of the appointment table. -/
def IdsNodup (σ : SysState) : Prop := σ.appts.Pairwise fun a b => a.id ≠ b.id

lemma overlapTest_of_canonical {aStart aEnd s e : Int}
    (h1 : s < aEnd) (h2 : aStart < e) : overlapTest aStart aEnd s e = true := by
  simp only [overlapTest, Bool.or_eq_true, Bool.and_eq_true, decide_eq_true_eq]
  omega

lemma canonical_of_overlapTest {aStart aEnd s e : Int}
    (hcand : s < e) (hex : aStart < aEnd)
    (h : overlapTest aStart aEnd s e = true) : s < aEnd ∧ aStart < e := by
  simp only [overlapTest, Bool.or_eq_true, Bool.and_eq_true, decide_eq_true_eq] at h
  omega

lemma overlapTest_eq_false_of_not_canonical {aStart aEnd s e : Int}
    (hcand : s < e) (hex : aStart < aEnd)
    (h : ¬ (s < aEnd ∧ aStart < e)) : overlapTest aStart aEnd s e = false := by
  simp only [overlapTest, Bool.or_eq_false_iff, Bool.and_eq_false_iff,
    decide_eq_false_iff_not, not_lt, not_le]
  omega

/-- All three data-integrity properties the operations maintain together:
auto-increment freshness, primary-key uniqueness, and the non-overlap
invariant. -/
def FullInv (σ : SysState) : Prop := IdsFresh σ ∧ IdsNodup σ ∧ NoOverlapInv σ

/-- Response element of GET /availability/slots. -/
structure TimeSlot where
  start_time : Int
  end_time : Int
deriving DecidableEq, Repr

/-- Slot-availability test of get_available_slots (availability.py line
112): the candidate slot is free unless it intersects a booked appointment,
i.e. free iff for every booked appointment the slot ends before the
appointment starts or starts after it ends. -/
def slotFree (booked : List Appointment) (s e : Int) : Bool :=
  booked.all fun a => decide (e ≤ a.start_time) || decide (s ≥ a.end_time)

/-- While loop of get_available_slots (availability.py lines 106-119):
starting from the window start, walk in steps of the slot duration while the
slot still fits in the window, keeping the free slots.  The loop is given
explicit fuel; the route's query validation guarantees delta is at least one
minute, so the fuel computed by slots_for_window is sufficient. -/
def slot_loop : Nat → Int → Int → Int → List Appointment → List TimeSlot
  | 0, _, _, _, _ => []
  | fuel + 1, current_time, end_time, delta, booked =>
    if current_time + delta ≤ end_time then
      (if slotFree booked current_time (current_time + delta)
        then [⟨current_time, current_time + delta⟩] else []) ++
      slot_loop fuel (current_time + delta) end_time delta booked
    else []

/-- Slots generated from one availability window on a given day:
current_time and end_time are datetime.combine(date, window time). -/
def slots_for_window (dayNum delta : Int) (booked : List Appointment)
    (av : Availability) : List TimeSlot :=
  slot_loop ((dayNum * usPerDay + av.end_time - (dayNum * usPerDay + av.start_time)).toNat + 1)
    (dayNum * usPerDay + av.start_time) (dayNum * usPerDay + av.end_time) delta booked

/-- get_available_slots (availability.py lines 53-121): none models the 422
rejection of a slot_duration outside 1-480 by the Query validator; otherwise
the selected windows are walked in order, filtering against the SCHEDULED
appointments of the staff member that intersect the day
(datetime.combine(date, time.min) to datetime.combine(date, time.max)). -/
def get_available_slots (σ : SysState) (staff : Nat) (dayNum : Int)
    (slot_duration : Nat) : Option (List TimeSlot) :=
  if slot_duration < 1 ∨ 480 < slot_duration then none
  else
    let availabilities := selectAvailabilities σ.avails staff dayNum (weekdayOfDay dayNum)
    if availabilities.isEmpty then some []
    else
      let start_of_day := dayNum * usPerDay
      let end_of_day := dayNum * usPerDay + (usPerDay - 1)
      let booked := σ.appts.filter fun a =>
        decide (a.staff_id = staff) && decide (a.status = AppointmentStatus.scheduled) &&
        decide (a.start_time < end_of_day) && decide (a.end_time > start_of_day)
      some ((availabilities.map
        (slots_for_window dayNum ((slot_duration : Int) * 60000000) booked)).flatten)

/-- Blocked flag of the user row with the given id, false when absent. -/
def clientBlocked (σ : SysState) (cid : Nat) : Bool :=
  match findUser σ cid with
  | some u => u.is_blocked
  | none => false

/-- No-show count of the user row with the given id. -/
def clientNoShowCount (σ : SysState) (cid : Nat) : Option Nat :=
  (findUser σ cid).map fun u => u.no_show_count

/-- Staff member of the concrete scenarios. -/
def staffU : User := ⟨1, .staff, 0, false⟩

/-- Unblocked client with no prior no-shows. -/
def clientU : User := ⟨2, .client, 0, false⟩

/-- Client who already has two no-shows. -/
def clientU2 : User := ⟨2, .client, 2, false⟩

/-- Recurring Monday 09:00-17:00 availability window of staff 1. -/
def monAvail : Availability := ⟨1, some 0, none, 32400000000, 61200000000, true⟩

/-- Initial state: no appointments, a staff member with the Monday window,
and an unblocked client.  Day 4 (1970-01-05) is a Monday; timestamps below
are on that day, e.g. 381600000000 is Monday 10:00. -/
def σ0c : SysState := ⟨[], [staffU, clientU], [monAvail], 0⟩

/-- Appointment booked Monday 10:00-11:00. -/
def apptA : Appointment := ⟨0, 2, 1, 381600000000, 385200000000, none, .scheduled⟩

/-- State after creating apptA. -/
def σ1c : SysState := ⟨[apptA], [staffU, clientU], [monAvail], 1⟩

/-- Appointment booked Monday 12:00-13:00. -/
def apptB : Appointment := ⟨1, 2, 1, 388800000000, 392400000000, none, .scheduled⟩

/-- State after creating apptA and apptB. -/
def σ2c : SysState := ⟨[apptA, apptB], [staffU, clientU], [monAvail], 2⟩

/-- Patch moving an appointment to Monday 10:30-11:30. -/
def patchMove : AppointmentUpdate := ⟨some 383400000000, some 387000000000, none, none⟩

/-- apptB after the 10:30-11:30 move: it now overlaps apptA. -/
def apptBmoved : Appointment := ⟨1, 2, 1, 383400000000, 387000000000, none, .scheduled⟩

/-- State reached by updating apptB with patchMove: two overlapping
SCHEDULED appointments of staff 1. -/
def σ3c : SysState := ⟨[apptA, apptBmoved], [staffU, clientU], [monAvail], 2⟩

/-- Patch setting only the status to CANCELLED. -/
def patchCancel : AppointmentUpdate := ⟨none, none, none, some .cancelled⟩

/-- Patch setting only the status to SCHEDULED. -/
def patchSched : AppointmentUpdate := ⟨none, none, none, some .scheduled⟩

/-- apptB after cancellation. -/
def apptBcanc : Appointment := ⟨1, 2, 1, 388800000000, 392400000000, none, .cancelled⟩

/-- State reached from σ2c by cancelling apptB through update. -/
def σ4c : SysState := ⟨[apptA, apptBcanc], [staffU, clientU], [monAvail], 2⟩

/-- apptA marked completed. -/
def apptAcomp : Appointment := ⟨0, 2, 1, 381600000000, 385200000000, none, .completed⟩

/-- State reached from σ4c by marking apptA completed. -/
def σ6c : SysState := ⟨[apptAcomp, apptBcanc], [staffU, clientU], [monAvail], 2⟩

/-- State like σ1c but whose client already has two no-shows. -/
def σ7c : SysState := ⟨[apptA], [staffU, clientU2], [monAvail], 1⟩

/-- apptA marked as a no-show. -/
def apptAns : Appointment := ⟨0, 2, 1, 381600000000, 385200000000, none, .no_show⟩

/-- Client 2 after the third no-show: count 3 and blocked. -/
def clientBlockedU : User := ⟨2, .client, 3, true⟩

/-- State after marking apptA of σ7c as a no-show. -/
def σ8c : SysState := ⟨[apptAns], [staffU, clientBlockedU], [monAvail], 1⟩

/-- Degenerate appointment with end before start, Monday 10:00 to 09:00. -/
def apptRev : Appointment := ⟨0, 2, 1, 381600000000, 378000000000, none, .scheduled⟩

/-- State after creating apptRev from σ0c. -/
def σ9c : SysState := ⟨[apptRev], [staffU, clientU], [monAvail], 1⟩

/-- Booking request for Monday 10:00-11:00 with staff 1. -/
def inpA : AppointmentCreate := ⟨1, 381600000000, 385200000000, none, .scheduled⟩

/-- Booking request for Monday 12:00-13:00 with staff 1. -/
def inpB : AppointmentCreate := ⟨1, 388800000000, 392400000000, none, .scheduled⟩

/-- Booking request for Monday 10:00-11:00 whose body carries status
COMPLETED, which the handler must ignore. -/
def inpACompletedStatus : AppointmentCreate :=
  ⟨1, 381600000000, 385200000000, none, .completed⟩

/-- Malformed booking request: end (Monday 09:00) precedes start (Monday
10:00). -/
def inpRev : AppointmentCreate := ⟨1, 381600000000, 378000000000, none, .scheduled⟩

/-- The eight 60-minute slots 09:00 through 16:00 of the Monday window. -/
def slots8 : List TimeSlot :=
  [⟨378000000000, 381600000000⟩, ⟨381600000000, 385200000000⟩,
   ⟨385200000000, 388800000000⟩, ⟨388800000000, 392400000000⟩,
   ⟨392400000000, 396000000000⟩, ⟨396000000000, 399600000000⟩,
   ⟨399600000000, 403200000000⟩, ⟨403200000000, 406800000000⟩]

/-- slots8 minus the one slot that overlaps the 10:00-11:00 booking. -/
def slots7 : List TimeSlot :=
  [⟨378000000000, 381600000000⟩,
   ⟨385200000000, 388800000000⟩, ⟨388800000000, 392400000000⟩,
   ⟨392400000000, 396000000000⟩, ⟨396000000000, 399600000000⟩,
   ⟨399600000000, 403200000000⟩, ⟨403200000000, 406800000000⟩]

lemma find_appointment_mem {σ : SysState} {id : Nat} {a : Appointment}
    (h : findAppointment σ id = some a) : a ∈ σ.appts ∧ a.id = id := by
  unfold findAppointment at h
  refine ⟨List.mem_of_find?_eq_some h, ?_⟩
  have := List.find?_some h
  simpa using this

lemma mem_unique_id {σ : SysState} (hnd : IdsNodup σ) {a b : Appointment}
    (ha : a ∈ σ.appts) (hb : b ∈ σ.appts) (hid : a.id = b.id) : a = b := by
  by_contra hne
  exact hnd.forall (fun x y h => Ne.symm h) ha hb hne hid

lemma find_appointment_of_mem {σ : SysState} (hnd : IdsNodup σ) {a : Appointment}
    (ha : a ∈ σ.appts) : findAppointment σ a.id = some a := by
  unfold findAppointment
  cases hf : σ.appts.find? fun b => decide (b.id = a.id) with
  | none =>
    have := List.find?_eq_none.mp hf a ha
    simp at this
  | some b =>
    obtain ⟨hb, hid⟩ := find_appointment_mem hf
    rw [mem_unique_id hnd hb ha hid]

lemma create_ok_elim {σ σ' : SysState} {inp : AppointmentCreate} {u : User}
    {a : Appointment} (h : create_appointment σ inp u = .ok (σ', a)) :
    u.is_blocked = false ∧
    is_staff_available σ.appts σ.avails inp.staff_id inp.start_time inp.end_time = true ∧
    a = { id := σ.nextId, client_id := u.id, staff_id := inp.staff_id,
          start_time := inp.start_time, end_time := inp.end_time,
          notes := inp.notes, status := .scheduled } ∧
    σ' = { σ with appts := σ.appts ++ [a], nextId := σ.nextId + 1 } := by
  unfold create_appointment at h
  by_cases hb : u.is_blocked = true
  · rw [if_pos hb] at h; exact absurd h (by simp)
  · rw [if_neg hb] at h
    by_cases hav : is_staff_available σ.appts σ.avails inp.staff_id inp.start_time
        inp.end_time = true
    · rw [if_neg (by simpa using hav)] at h
      rw [Except.ok.injEq, Prod.mk.injEq] at h
      obtain ⟨h1, h2⟩ := h
      subst h2
      exact ⟨by simpa using hb, hav, rfl, h1.symm⟩
    · rw [if_pos (by simpa using hav)] at h; exact absurd h (by simp)

lemma update_ok_elim {σ σ' : SysState} {id : Nat} {patch : AppointmentUpdate}
    {u : User} {now : Int} {a : Appointment}
    (h : update_appointment σ id patch u now = .ok (σ', a)) :
    ∃ db_obj, findAppointment σ id = some db_obj ∧
      ¬ (u.role ≠ .admin ∧ db_obj.client_id ≠ u.id ∧ db_obj.staff_id ≠ u.id) ∧
      ¬ (db_obj.start_time - now < twoHoursUs) ∧
      a = applyUpdate db_obj patch ∧
      σ' = { σ with appts := σ.appts.map fun b =>
              if b.id = id then applyUpdate b patch else b } := by
  unfold update_appointment at h
  cases hf : findAppointment σ id with
  | none => rw [hf] at h; exact absurd h (by simp)
  | some db_obj =>
    simp only [hf] at h
    by_cases hperm : u.role ≠ .admin ∧ db_obj.client_id ≠ u.id ∧ db_obj.staff_id ≠ u.id
    · rw [if_pos hperm] at h; exact absurd h (by simp)
    · rw [if_neg hperm] at h
      by_cases hcut : db_obj.start_time - now < twoHoursUs
      · rw [if_pos hcut] at h; exact absurd h (by simp)
      · rw [if_neg hcut] at h
        rw [Except.ok.injEq, Prod.mk.injEq] at h
        obtain ⟨h1, h2⟩ := h
        subst h2
        exact ⟨db_obj, rfl, hperm, hcut, rfl, h1.symm⟩

lemma reschedule_ok_elim {σ σ' : SysState} {id : Nat} {r : AppointmentReschedule}
    {u : User} {now : Int} {a : Appointment}
    (h : reschedule_appointment σ id r u now = .ok (σ', a)) :
    ∃ db_obj, findAppointment σ id = some db_obj ∧
      db_obj.status = .scheduled ∧
      ¬ (db_obj.start_time - now < twoHoursUs) ∧
      rescheduleConflict σ.appts db_obj.staff_id id r = false ∧
      availabilityCovers σ.avails db_obj.staff_id r.new_start_time r.new_end_time = true ∧
      a = rescheduleUpd r db_obj ∧
      σ' = { σ with appts := σ.appts.map fun b =>
              if b.id = id then rescheduleUpd r b else b } := by
  unfold reschedule_appointment at h
  cases hf : findAppointment σ id with
  | none => rw [hf] at h; exact absurd h (by simp)
  | some db_obj =>
    simp only [hf] at h
    by_cases hperm : u.role ≠ .admin ∧ db_obj.client_id ≠ u.id ∧ db_obj.staff_id ≠ u.id
    · rw [if_pos hperm] at h; exact absurd h (by simp)
    · rw [if_neg hperm] at h
      by_cases hst : db_obj.status ≠ .scheduled
      · rw [if_pos hst] at h; exact absurd h (by simp)
      · rw [if_neg hst] at h
        by_cases hcut : db_obj.start_time - now < twoHoursUs
        · rw [if_pos hcut] at h; exact absurd h (by simp)
        · rw [if_neg hcut] at h
          by_cases hconf : rescheduleConflict σ.appts db_obj.staff_id id r = true
          · rw [if_pos hconf] at h; exact absurd h (by simp)
          · rw [if_neg hconf] at h
            by_cases hcov : availabilityCovers σ.avails db_obj.staff_id
                r.new_start_time r.new_end_time = true
            · rw [if_neg (by simpa using hcov)] at h
              rw [Except.ok.injEq, Prod.mk.injEq] at h
              obtain ⟨h1, h2⟩ := h
              subst h2
              exact ⟨db_obj, rfl, not_not.mp hst, hcut, by simpa using hconf,
                hcov, rfl, h1.symm⟩
            · rw [if_pos (by simpa using hcov)] at h; exact absurd h (by simp)

lemma no_show_ok_elim {σ σ' : SysState} {id : Nat} {u : User} {now : Int}
    {a : Appointment} (h : mark_appointment_no_show σ id u now = .ok (σ', a)) :
    ∃ db_obj, findAppointment σ id = some db_obj ∧
      db_obj.status = .scheduled ∧
      db_obj.start_time ≤ now ∧
      a = { db_obj with status := AppointmentStatus.no_show } ∧
      σ' = { σ with
        appts := σ.appts.map fun b =>
          if b.id = id then { b with status := AppointmentStatus.no_show } else b,
        users := match findUser σ db_obj.client_id with
          | none => σ.users
          | some _ => σ.users.map (noShowUserUpd db_obj.client_id) } := by
  unfold mark_appointment_no_show at h
  by_cases hrole : u.role ≠ .admin ∧ u.role ≠ .staff
  · rw [if_pos hrole] at h; exact absurd h (by simp)
  · rw [if_neg hrole] at h
    cases hf : findAppointment σ id with
    | none => rw [hf] at h; exact absurd h (by simp)
    | some db_obj =>
      simp only [hf] at h
      by_cases hperm : u.role ≠ .admin ∧ db_obj.staff_id ≠ u.id
      · rw [if_pos hperm] at h; exact absurd h (by simp)
      · rw [if_neg hperm] at h
        by_cases hst : db_obj.status ≠ .scheduled
        · rw [if_pos hst] at h; exact absurd h (by simp)
        · rw [if_neg hst] at h
          by_cases hfut : db_obj.start_time > now
          · rw [if_pos hfut] at h; exact absurd h (by simp)
          · rw [if_neg hfut] at h
            rw [Except.ok.injEq, Prod.mk.injEq] at h
            obtain ⟨h1, h2⟩ := h
            subst h2
            exact ⟨db_obj, rfl, not_not.mp hst, by omega, rfl, h1.symm⟩

lemma completed_ok_elim {σ σ' : SysState} {id : Nat} {u : User} {now : Int}
    {a : Appointment} (h : mark_appointment_completed σ id u now = .ok (σ', a)) :
    ∃ db_obj, findAppointment σ id = some db_obj ∧
      db_obj.status = .scheduled ∧
      db_obj.start_time ≤ now ∧
      a = { db_obj with status := AppointmentStatus.completed } ∧
      σ' = { σ with appts := σ.appts.map fun b =>
              if b.id = id then { b with status := AppointmentStatus.completed }
              else b } := by
  unfold mark_appointment_completed at h
  by_cases hrole : u.role ≠ .admin ∧ u.role ≠ .staff
  · rw [if_pos hrole] at h; exact absurd h (by simp)
  · rw [if_neg hrole] at h
    cases hf : findAppointment σ id with
    | none => rw [hf] at h; exact absurd h (by simp)
    | some db_obj =>
      simp only [hf] at h
      by_cases hperm : u.role ≠ .admin ∧ db_obj.staff_id ≠ u.id
      · rw [if_pos hperm] at h; exact absurd h (by simp)
      · rw [if_neg hperm] at h
        by_cases hst : db_obj.status ≠ .scheduled
        · rw [if_pos hst] at h; exact absurd h (by simp)
        · rw [if_neg hst] at h
          by_cases hfut : db_obj.start_time > now
          · rw [if_pos hfut] at h; exact absurd h (by simp)
          · rw [if_neg hfut] at h
            rw [Except.ok.injEq, Prod.mk.injEq] at h
            obtain ⟨h1, h2⟩ := h
            subst h2
            exact ⟨db_obj, rfl, not_not.mp hst, by omega, rfl, h1.symm⟩

lemma is_staff_available_true_elim {appts : List Appointment}
    {avails : List Availability} {staff : Nat} {s e : Int}
    (h : is_staff_available appts avails staff s e = true) :
    hasOverlappingAppointment appts staff s e = false ∧
    availabilityCovers avails staff s e = true := by
  unfold is_staff_available at h
  by_cases ho : hasOverlappingAppointment appts staff s e = true
  · rw [if_pos ho] at h; exact absurd h (by simp)
  · rw [if_neg ho] at h
    exact ⟨by simpa using ho, h⟩

lemma hasOverlapping_false_sound {appts : List Appointment} {staff : Nat}
    {s e : Int} (h : hasOverlappingAppointment appts staff s e = false) :
    ∀ b ∈ appts, b.staff_id = staff → b.status = AppointmentStatus.scheduled →
      ¬ (s < b.end_time ∧ b.start_time < e) := by
  intro b hb hstaff hsched hcan
  have ht : hasOverlappingAppointment appts staff s e = true := by
    unfold hasOverlappingAppointment
    rw [List.any_eq_true]
    exact ⟨b, hb, by
      simp [hstaff, hsched, overlapTest_of_canonical hcan.1 hcan.2]⟩
  rw [h] at ht
  exact Bool.false_ne_true ht

lemma rescheduleConflict_false_sound {appts : List Appointment} {staff id : Nat}
    {r : AppointmentReschedule}
    (h : rescheduleConflict appts staff id r = false) :
    ∀ b ∈ appts, b.staff_id = staff → b.id ≠ id →
      b.status = AppointmentStatus.scheduled →
      ¬ (r.new_start_time < b.end_time ∧ b.start_time < r.new_end_time) := by
  intro b hb hstaff hbid hsched hcan
  have ht : rescheduleConflict appts staff id r = true := by
    unfold rescheduleConflict
    rw [List.any_eq_true]
    exact ⟨b, hb, by
      simp [hstaff, hbid, hsched, overlapTest_of_canonical hcan.1 hcan.2]⟩
  rw [h] at ht
  exact Bool.false_ne_true ht

lemma fullInv_create {σ σ' : SysState} {inp : AppointmentCreate} {u : User}
    {a : Appointment} (h : create_appointment σ inp u = .ok (σ', a))
    (hI : FullInv σ) : FullInv σ' := by
  obtain ⟨hb, hav, ha, hσ⟩ := create_ok_elim h
  obtain ⟨hno, hcov⟩ := is_staff_available_true_elim hav
  subst ha
  subst hσ
  obtain ⟨hfr, hnd, hov⟩ := hI
  refine ⟨?_, ?_, ?_⟩
  · intro x hx
    simp only [List.mem_append, List.mem_singleton] at hx
    rcases hx with hx | rfl
    · have := hfr x hx
      show x.id < σ.nextId + 1
      omega
    · show σ.nextId < σ.nextId + 1
      omega
  · refine List.pairwise_append.mpr ⟨hnd, by simp, ?_⟩
    intro x hx y hy
    simp only [List.mem_singleton] at hy
    subst hy
    have := hfr x hx
    show x.id ≠ σ.nextId
    omega
  · intro x hx y hy hid hstaff hsx hsy
    simp only [List.mem_append, List.mem_singleton] at hx hy
    rcases hx with hx | rfl <;> rcases hy with hy | rfl
    · exact hov x hx y hy hid hstaff hsx hsy
    · intro hcan
      exact hasOverlapping_false_sound hno x hx hstaff hsx ⟨hcan.2, hcan.1⟩
    · intro hcan
      exact hasOverlapping_false_sound hno y hy hstaff.symm hsy ⟨hcan.1, hcan.2⟩
    · exact absurd rfl hid

lemma ite_reschedUpd_id (r : AppointmentReschedule) (id : Nat) (b : Appointment) :
    (if b.id = id then rescheduleUpd r b else b).id = b.id := by
  by_cases hb : b.id = id <;> simp [hb, rescheduleUpd]

lemma ite_reschedUpd_staff (r : AppointmentReschedule) (id : Nat) (b : Appointment) :
    (if b.id = id then rescheduleUpd r b else b).staff_id = b.staff_id := by
  by_cases hb : b.id = id <;> simp [hb, rescheduleUpd]

lemma ite_reschedUpd_status (r : AppointmentReschedule) (id : Nat) (b : Appointment) :
    (if b.id = id then rescheduleUpd r b else b).status = b.status := by
  by_cases hb : b.id = id <;> simp [hb, rescheduleUpd]

lemma fullInv_reschedule {σ σ' : SysState} {id : Nat} {r : AppointmentReschedule}
    {u : User} {now : Int} {a : Appointment}
    (h : reschedule_appointment σ id r u now = .ok (σ', a))
    (hI : FullInv σ) : FullInv σ' := by
  obtain ⟨db, hf, hsched, hcut, hconf, hcov, ha, hσ⟩ := reschedule_ok_elim h
  obtain ⟨hdbmem, hdbid⟩ := find_appointment_mem hf
  subst hσ
  obtain ⟨hfr, hnd, hov⟩ := hI
  refine ⟨?_, ?_, ?_⟩
  · intro x hx
    simp only [List.mem_map] at hx
    obtain ⟨y, hy, rfl⟩ := hx
    show (if y.id = id then rescheduleUpd r y else y).id < σ.nextId
    rw [ite_reschedUpd_id]
    exact hfr y hy
  · refine List.pairwise_map.mpr (hnd.imp ?_)
    intro p q hpq
    rw [ite_reschedUpd_id, ite_reschedUpd_id]
    exact hpq
  · intro x hx y hy hid hstaff hsx hsy
    simp only [List.mem_map] at hx hy
    obtain ⟨x0, hx0, rfl⟩ := hx
    obtain ⟨y0, hy0, rfl⟩ := hy
    rw [ite_reschedUpd_id, ite_reschedUpd_id] at hid
    rw [ite_reschedUpd_staff, ite_reschedUpd_staff] at hstaff
    rw [ite_reschedUpd_status] at hsx hsy
    by_cases hxid : x0.id = id <;> by_cases hyid : y0.id = id
    · exact absurd (hxid.trans hyid.symm) hid
    · have hx0db : x0 = db := mem_unique_id hnd hx0 hdbmem (by rw [hxid, hdbid])
      rw [if_pos hxid, if_neg hyid]
      intro hcan
      simp only [rescheduleUpd] at hcan
      refine rescheduleConflict_false_sound hconf y0 hy0 ?_ hyid hsy
        ⟨hcan.1, hcan.2⟩
      rw [← hstaff, hx0db]
    · have hy0db : y0 = db := mem_unique_id hnd hy0 hdbmem (by rw [hyid, hdbid])
      rw [if_neg hxid, if_pos hyid]
      intro hcan
      simp only [rescheduleUpd] at hcan
      refine rescheduleConflict_false_sound hconf x0 hx0 ?_ hxid hsx
        ⟨hcan.2, hcan.1⟩
      rw [hstaff, hy0db]
    · rw [if_neg hxid, if_neg hyid]
      exact hov x0 hx0 y0 hy0 hid hstaff hsx hsy

lemma ite_statusMap_id (st : AppointmentStatus) (id : Nat) (b : Appointment) :
    (if b.id = id then { b with status := st } else b).id = b.id := by
  by_cases hb : b.id = id <;> simp [hb]

lemma fullInv_statusMap {σ σ' : SysState} {id : Nat} {st : AppointmentStatus}
    (happ : σ'.appts = σ.appts.map fun b =>
      if b.id = id then { b with status := st } else b)
    (hstat : st ≠ AppointmentStatus.scheduled)
    (hnid : σ'.nextId = σ.nextId) (hI : FullInv σ) : FullInv σ' := by
  obtain ⟨hfr, hnd, hov⟩ := hI
  refine ⟨?_, ?_, ?_⟩
  · intro x hx
    rw [happ] at hx
    simp only [List.mem_map] at hx
    obtain ⟨y, hy, rfl⟩ := hx
    rw [hnid, ite_statusMap_id]
    exact hfr y hy
  · unfold IdsNodup
    rw [happ]
    refine List.pairwise_map.mpr (hnd.imp ?_)
    intro p q hpq
    rw [ite_statusMap_id, ite_statusMap_id]
    exact hpq
  · intro x hx y hy hid hstaff hsx hsy
    rw [happ] at hx hy
    simp only [List.mem_map] at hx hy
    obtain ⟨x0, hx0, rfl⟩ := hx
    obtain ⟨y0, hy0, rfl⟩ := hy
    by_cases hxid : x0.id = id
    · rw [if_pos hxid] at hsx
      exact absurd hsx hstat
    · by_cases hyid : y0.id = id
      · rw [if_pos hyid] at hsy
        exact absurd hsy hstat
      · rw [if_neg hxid] at hsx ⊢
        rw [if_neg hyid] at hsy ⊢
        rw [if_neg hxid, if_neg hyid] at hid hstaff
        exact hov x0 hx0 y0 hy0 hid hstaff hsx hsy

lemma fullInv_coreStep {σ σ' : SysState} (h : CoreStep σ σ') (hI : FullInv σ) :
    FullInv σ' := by
  cases h with
  | create h => exact fullInv_create h hI
  | reschedule h => exact fullInv_reschedule h hI
  | noShow h =>
    obtain ⟨db, hf, hsched, hpast, ha, hσ⟩ := no_show_ok_elim h
    exact fullInv_statusMap (by rw [hσ]) (by decide) (by rw [hσ]) hI
  | completed h =>
    obtain ⟨db, hf, hsched, hpast, ha, hσ⟩ := completed_ok_elim h
    exact fullInv_statusMap (by rw [hσ]) (by decide) (by rw [hσ]) hI

lemma fullInv_reachable {σ0 σ : SysState} (h0 : σ0.appts = [])
    (h : Relation.ReflTransGen CoreStep σ0 σ) : FullInv σ := by
  induction h with
  | refl =>
    refine ⟨?_, ?_, ?_⟩
    · intro x hx
      rw [h0] at hx
      cases hx
    · show σ0.appts.Pairwise fun a b => a.id ≠ b.id
      rw [h0]
      exact List.Pairwise.nil
    · intro x hx
      rw [h0] at hx
      cases hx
  | tail _ hbc ih => exact fullInv_coreStep hbc ih

lemma idsFresh_nodup_step {σ σ' : SysState} (h : CoreStep σ σ')
    (hfr : IdsFresh σ) (hnd : IdsNodup σ) :
    IdsFresh σ' ∧ IdsNodup σ' ∧ σ.nextId ≤ σ'.nextId := by
  cases h with
  | create h =>
    obtain ⟨_, _, ha, hσ⟩ := create_ok_elim h
    subst ha
    subst hσ
    refine ⟨?_, ?_, Nat.le_succ _⟩
    · intro x hx
      simp only [List.mem_append, List.mem_singleton] at hx
      rcases hx with hx | rfl
      · have := hfr x hx
        show x.id < σ.nextId + 1
        omega
      · show σ.nextId < σ.nextId + 1
        omega
    · refine List.pairwise_append.mpr ⟨hnd, by simp, ?_⟩
      intro x hx y hy
      simp only [List.mem_singleton] at hy
      subst hy
      have := hfr x hx
      show x.id ≠ σ.nextId
      omega
  | reschedule h =>
    obtain ⟨db, hf, _, _, _, _, ha, hσ⟩ := reschedule_ok_elim h
    subst hσ
    refine ⟨?_, ?_, le_refl _⟩
    · intro x hx
      simp only [List.mem_map] at hx
      obtain ⟨y, hy, rfl⟩ := hx
      show (if y.id = _ then rescheduleUpd _ y else y).id < σ.nextId
      rw [ite_reschedUpd_id]
      exact hfr y hy
    · refine List.pairwise_map.mpr (hnd.imp ?_)
      intro p q hpq
      rw [ite_reschedUpd_id, ite_reschedUpd_id]
      exact hpq
  | noShow h =>
    obtain ⟨db, hf, _, _, ha, hσ⟩ := no_show_ok_elim h
    subst hσ
    refine ⟨?_, ?_, le_refl _⟩
    · intro x hx
      simp only [List.mem_map] at hx
      obtain ⟨y, hy, rfl⟩ := hx
      rw [ite_statusMap_id]
      exact hfr y hy
    · refine List.pairwise_map.mpr (hnd.imp ?_)
      intro p q hpq
      rw [ite_statusMap_id, ite_statusMap_id]
      exact hpq
  | completed h =>
    obtain ⟨db, hf, _, _, ha, hσ⟩ := completed_ok_elim h
    subst hσ
    refine ⟨?_, ?_, le_refl _⟩
    · intro x hx
      simp only [List.mem_map] at hx
      obtain ⟨y, hy, rfl⟩ := hx
      rw [ite_statusMap_id]
      exact hfr y hy
    · refine List.pairwise_map.mpr (hnd.imp ?_)
      intro p q hpq
      rw [ite_statusMap_id, ite_statusMap_id]
      exact hpq

lemma status_stable_step {σ σ' : SysState} (h : CoreStep σ σ') (hnd : IdsNodup σ)
    {aid : Nat} {S : AppointmentStatus} (hS : S ≠ AppointmentStatus.scheduled)
    (hlt : aid < σ.nextId)
    (H : ∀ b ∈ σ.appts, b.id = aid → b.status = S) :
    ∀ b ∈ σ'.appts, b.id = aid → b.status = S := by
  cases h with
  | create h =>
    obtain ⟨_, _, ha, hσ⟩ := create_ok_elim h
    subst ha
    subst hσ
    intro b hb hid
    simp only [List.mem_append, List.mem_singleton] at hb
    rcases hb with hb | rfl
    · exact H b hb hid
    · exact absurd hid (by show ¬ σ.nextId = aid; omega)
  | @reschedule id r u now a h =>
    obtain ⟨db, hf, hsched, _, _, _, ha, hσ⟩ := reschedule_ok_elim h
    subst hσ
    intro b hb hid
    simp only [List.mem_map] at hb
    obtain ⟨b0, hb0, rfl⟩ := hb
    rw [ite_reschedUpd_id] at hid
    rw [ite_reschedUpd_status]
    exact H b0 hb0 hid
  | @noShow id u now a h =>
    obtain ⟨db, hf, hsched, _, ha, hσ⟩ := no_show_ok_elim h
    subst hσ
    intro b hb hid
    simp only [List.mem_map] at hb
    obtain ⟨b0, hb0, rfl⟩ := hb
    rw [ite_statusMap_id] at hid
    by_cases hb0id : b0.id = id
    · obtain ⟨hdbmem, hdbid⟩ := find_appointment_mem hf
      have hb0db : b0 = db := mem_unique_id hnd hb0 hdbmem (by rw [hb0id, hdbid])
      subst hb0db
      exact absurd ((H b0 hb0 hid).symm.trans hsched) hS
    · rw [if_neg hb0id]
      exact H b0 hb0 hid
  | @completed id u now a h =>
    obtain ⟨db, hf, hsched, _, ha, hσ⟩ := completed_ok_elim h
    subst hσ
    intro b hb hid
    simp only [List.mem_map] at hb
    obtain ⟨b0, hb0, rfl⟩ := hb
    rw [ite_statusMap_id] at hid
    by_cases hb0id : b0.id = id
    · obtain ⟨hdbmem, hdbid⟩ := find_appointment_mem hf
      have hb0db : b0 = db := mem_unique_id hnd hb0 hdbmem (by rw [hb0id, hdbid])
      subst hb0db
      exact absurd ((H b0 hb0 hid).symm.trans hsched) hS
    · rw [if_neg hb0id]
      exact H b0 hb0 hid

/-- C1 (amended): for every state reachable from an empty appointment set by
create_appointment, reschedule_appointment, mark_appointment_completed and
mark_appointment_no_show, any two distinct SCHEDULED appointments of the
same staff member have non-overlapping time intervals.  The claim as frozen
also admits update_appointment among the operations, which
update_breaks_no_overlap_invariant refutes. -/
theorem reachable_scheduled_non_overlapping (σ0 σ : SysState)
    (h0 : σ0.appts = []) (h : Relation.ReflTransGen CoreStep σ0 σ) :
    NoOverlapInv σ :=
  (fullInv_reachable h0 h).2.2

/-- Witness for C1 at the concrete two-booking state σ2c reached from the
empty state by two create operations. -/
theorem reachable_scheduled_non_overlapping_witness : NoOverlapInv σ2c :=
  reachable_scheduled_non_overlapping σ0c σ2c rfl
    (Relation.ReflTransGen.tail
      (Relation.ReflTransGen.single
        (CoreStep.create
          (show create_appointment σ0c inpA clientU = .ok (σ1c, apptA) from rfl)))
      (CoreStep.create
        (show create_appointment σ1c inpB clientU = .ok (σ2c, apptB) from rfl)))

/-- C1 as frozen is false: with update_appointment among the lifecycle
operations, a state holding two overlapping SCHEDULED appointments of one
staff member (Monday 10:00-11:00 and 10:30-11:30) is reachable from the
empty appointment set, because update applies a time patch with no conflict
check. -/
theorem update_breaks_no_overlap_invariant :
    ¬ (∀ σ0 σ : SysState, σ0.appts = [] →
        Relation.ReflTransGen LStep σ0 σ → NoOverlapInv σ) := by
  intro H
  have hreach : Relation.ReflTransGen LStep σ0c σ3c :=
    Relation.ReflTransGen.tail
      (Relation.ReflTransGen.tail
        (Relation.ReflTransGen.single
          (LStep.create
            (show create_appointment σ0c inpA clientU = .ok (σ1c, apptA) from rfl)))
        (LStep.create
          (show create_appointment σ1c inpB clientU = .ok (σ2c, apptB) from rfl)))
      (LStep.update
        (show update_appointment σ2c 1 patchMove clientU 0 = .ok (σ3c, apptBmoved)
          from rfl))
  exact H σ0c σ3c rfl hreach apptA (by decide) apptBmoved (by decide)
    (by decide) rfl rfl rfl ⟨by decide, by decide⟩

lemma mem_id_step {σ σ' : SysState} (h : CoreStep σ σ') {aid : Nat}
    (hex : ∃ b ∈ σ.appts, b.id = aid) : ∃ b ∈ σ'.appts, b.id = aid := by
  obtain ⟨b, hb, hid⟩ := hex
  cases h with
  | create h =>
    obtain ⟨_, _, ha, hσ⟩ := create_ok_elim h
    subst ha
    subst hσ
    exact ⟨b, List.mem_append_left _ hb, hid⟩
  | @reschedule id r u now a h =>
    obtain ⟨db, hf, _, _, _, _, ha, hσ⟩ := reschedule_ok_elim h
    subst hσ
    refine ⟨if b.id = id then rescheduleUpd r b else b,
      List.mem_map.mpr ⟨b, hb, rfl⟩, ?_⟩
    rw [ite_reschedUpd_id]
    exact hid
  | @noShow id u now a h =>
    obtain ⟨db, hf, _, _, ha, hσ⟩ := no_show_ok_elim h
    subst hσ
    refine ⟨if b.id = id then { b with status := AppointmentStatus.no_show } else b,
      List.mem_map.mpr ⟨b, hb, rfl⟩, ?_⟩
    rw [ite_statusMap_id]
    exact hid
  | @completed id u now a h =>
    obtain ⟨db, hf, _, _, ha, hσ⟩ := completed_ok_elim h
    subst hσ
    refine ⟨if b.id = id then { b with status := AppointmentStatus.completed } else b,
      List.mem_map.mpr ⟨b, hb, rfl⟩, ?_⟩
    rw [ite_statusMap_id]
    exact hid

/-- C4 (amended): under reschedule_appointment, mark_appointment_completed
and mark_appointment_no_show (and create_appointment, which only adds new
SCHEDULED rows), the statuses CANCELLED, COMPLETED and NO_SHOW are terminal:
after any sequence of update-free operations, looking up an appointment that
was not SCHEDULED still yields its old status.  update_appointment is
excluded because update_leaves_terminal_status refutes the claim for it. -/
theorem terminal_statuses_stable_without_update (σ σ' : SysState)
    (hfr : IdsFresh σ) (hnd : IdsNodup σ)
    (h : Relation.ReflTransGen CoreStep σ σ') (a : Appointment)
    (ha : a ∈ σ.appts) (hts : a.status ≠ AppointmentStatus.scheduled) :
    (findAppointment σ' a.id).map (fun b => b.status) = some a.status := by
  suffices H : IdsFresh σ' ∧ IdsNodup σ' ∧ a.id < σ'.nextId ∧
      (∃ b ∈ σ'.appts, b.id = a.id) ∧
      ∀ a' ∈ σ'.appts, a'.id = a.id → a'.status = a.status by
    obtain ⟨-, -, -, ⟨b, hb, hbid⟩, hall⟩ := H
    cases hfa : findAppointment σ' a.id with
    | none =>
      exfalso
      have := List.find?_eq_none.mp hfa b hb
      simp [hbid] at this
    | some c =>
      obtain ⟨hcmem, hcid⟩ := find_appointment_mem hfa
      rw [Option.map_some']
      rw [hall c hcmem hcid]
  induction h with
  | refl =>
    exact ⟨hfr, hnd, hfr a ha, ⟨a, ha, rfl⟩,
      fun b hb hid => by rw [mem_unique_id hnd hb ha hid]⟩
  | tail hrt hbc ih =>
    obtain ⟨hfr2, hnd2, hlt2, hex2, H2⟩ := ih
    obtain ⟨hfr3, hnd3, hmono⟩ := idsFresh_nodup_step hbc hfr2 hnd2
    exact ⟨hfr3, hnd3, by omega, mem_id_step hbc hex2,
      status_stable_step hbc hnd2 hts hlt2 H2⟩

/-- Witness for C4 (amended) at the concrete state σ4c holding a CANCELLED
appointment: after marking the other appointment completed, looking up the
cancelled one still yields CANCELLED. -/
theorem terminal_statuses_stable_witness :
    (findAppointment σ6c apptBcanc.id).map (fun b => b.status) =
      some apptBcanc.status :=
  terminal_statuses_stable_without_update σ4c σ6c
    (show ∀ a ∈ σ4c.appts, a.id < σ4c.nextId by decide)
    (show σ4c.appts.Pairwise (fun a b => a.id ≠ b.id) by decide)
    (Relation.ReflTransGen.single
      (CoreStep.completed
        (show mark_appointment_completed σ4c 0 staffU 400000000000 =
          .ok (σ6c, apptAcomp) from rfl)))
    apptBcanc (by decide) (by decide)

/-- C4 as frozen is false: update_appointment applies a status patch with no
transition check, so it moves a CANCELLED appointment (far enough before its
start time) back to SCHEDULED. -/
theorem update_leaves_terminal_status :
    ¬ (∀ σ σ' : SysState, IdsFresh σ → LStep σ σ' →
        ∀ a ∈ σ.appts, a.status ≠ AppointmentStatus.scheduled →
        ∀ a' ∈ σ'.appts, a'.id = a.id → a'.status = a.status) := by
  intro H
  have hstep : LStep σ4c σ2c :=
    LStep.update
      (show update_appointment σ4c 1 patchSched clientU 0 = .ok (σ2c, apptB)
        from rfl)
  have := H σ4c σ2c (show ∀ a ∈ σ4c.appts, a.id < σ4c.nextId by decide) hstep
    apptBcanc (by decide) (by decide)
    apptB (by decide) rfl
  exact absurd this (by decide)

lemma find?_map_of_pred {α : Type} (l : List α) (f : α → α) (p : α → Bool)
    (hf : ∀ x, p (f x) = p x) : (l.map f).find? p = (l.find? p).map f := by
  rw [List.find?_map, show p ∘ f = p from funext hf]

lemma noShowUserUpd_id (tcid : Nat) (v : User) :
    (noShowUserUpd tcid v).id = v.id := by
  by_cases hv : v.id = tcid <;> simp [noShowUserUpd, hv]

lemma findUser_map_noShowUpd (users : List User) (tcid cid : Nat) :
    (users.map (noShowUserUpd tcid)).find? (fun v => decide (v.id = cid)) =
      (users.find? (fun v => decide (v.id = cid))).map (noShowUserUpd tcid) :=
  find?_map_of_pred users (noShowUserUpd tcid) _ (fun v => by
    rw [noShowUserUpd_id])

lemma noShowUserUpd_blocked_mono {tcid : Nat} {v : User}
    (hv : v.is_blocked = true) : (noShowUserUpd tcid v).is_blocked = true := by
  unfold noShowUserUpd
  by_cases hid : v.id = tcid
  · rw [if_pos hid]
    by_cases hc : v.no_show_count + 1 ≥ 3 <;> simp [hc, hv]
  · rw [if_neg hid]
    exact hv

lemma clientBlocked_noShowState (σ : SysState) (newAppts : List Appointment)
    (tcid : Nat) {cid : Nat} (hb : clientBlocked σ cid = true) :
    clientBlocked { σ with
      appts := newAppts,
      users := (match findUser σ tcid with
        | none => σ.users
        | some _ => σ.users.map (noShowUserUpd tcid)) } cid = true := by
  unfold clientBlocked findUser at hb ⊢
  cases hfu : σ.users.find? fun v => decide (v.id = tcid) with
  | none => simp only [hfu]; exact hb
  | some w =>
    simp only [hfu]
    rw [findUser_map_noShowUpd]
    cases hu : σ.users.find? fun v => decide (v.id = cid) with
    | none => rw [hu] at hb; exact absurd hb (by simp)
    | some u0 =>
      simp only [hu] at hb
      simp only [hu, Option.map_some']
      exact noShowUserUpd_blocked_mono hb

lemma blocked_step {σ σ' : SysState} (h : LStep σ σ') {cid : Nat}
    (hb : clientBlocked σ cid = true) : clientBlocked σ' cid = true := by
  cases h with
  | create h =>
    obtain ⟨_, _, ha, hσ⟩ := create_ok_elim h
    subst hσ
    exact hb
  | update h =>
    obtain ⟨db, hf, _, _, ha, hσ⟩ := update_ok_elim h
    subst hσ
    exact hb
  | reschedule h =>
    obtain ⟨db, hf, _, _, _, _, ha, hσ⟩ := reschedule_ok_elim h
    subst hσ
    exact hb
  | completed h =>
    obtain ⟨db, hf, _, _, ha, hσ⟩ := completed_ok_elim h
    subst hσ
    exact hb
  | noShow h =>
    obtain ⟨db, hf, _, _, ha, hσ⟩ := no_show_ok_elim h
    subst hσ
    exact clientBlocked_noShowState σ _ db.client_id hb

lemma blocked_reachable {σ σ' : SysState}
    (h : Relation.ReflTransGen LStep σ σ') {cid : Nat}
    (hb : clientBlocked σ cid = true) : clientBlocked σ' cid = true := by
  induction h with
  | refl => exact hb
  | tail _ hbc ih => exact blocked_step hbc ih

lemma create_blocked_error {σ : SysState} {inp : AppointmentCreate} {u : User}
    (hb : u.is_blocked = true) :
    create_appointment σ inp u = .error .blocked := by
  unfold create_appointment
  rw [if_pos hb]

/-- C5: a client whose no-show count is 2 who is marked no-show on one of
their SCHEDULED past-start appointments ends with count exactly 3 and
is_blocked true in the same transition; the block survives every further
lifecycle operation, and any subsequent create call by that client (the
authenticated user row with their id) fails with the blocked-client error,
creating nothing. -/
theorem no_show_blocking (σ σ' : SysState) (id cid : Nat) (u : User)
    (now : Int) (a : Appointment)
    (hok : mark_appointment_no_show σ id u now = .ok (σ', a))
    (hcid : a.client_id = cid)
    (hcount : clientNoShowCount σ cid = some 2) :
    clientNoShowCount σ' cid = some 3 ∧ clientBlocked σ' cid = true ∧
    ∀ σ'', Relation.ReflTransGen LStep σ' σ'' →
      clientBlocked σ'' cid = true ∧
      ∀ inp uc, findUser σ'' cid = some uc →
        create_appointment σ'' inp uc = .error .blocked := by
  obtain ⟨db, hf, hsched, hpast, ha, hσ⟩ := no_show_ok_elim hok
  subst ha
  have hdbc : db.client_id = cid := hcid
  subst hσ
  rw [hdbc]
  obtain ⟨u0, hfu, hcnt⟩ : ∃ u0,
      σ.users.find? (fun v => decide (v.id = cid)) = some u0 ∧
      u0.no_show_count = 2 := by
    unfold clientNoShowCount findUser at hcount
    cases hfu : σ.users.find? fun v => decide (v.id = cid) with
    | none => rw [hfu] at hcount; exact absurd hcount (by simp)
    | some u0 =>
      rw [hfu, Option.map_some', Option.some.injEq] at hcount
      exact ⟨u0, rfl, hcount⟩
  have hu0id : u0.id = cid := by simpa using List.find?_some hfu
  have hfu' : findUser σ cid = some u0 := hfu
  have hstate : (match findUser σ cid with
      | none => σ.users
      | some _ => σ.users.map (noShowUserUpd cid)) =
      σ.users.map (noShowUserUpd cid) := by rw [hfu']
  rw [hstate]
  have hcount3 : clientNoShowCount
      { σ with
        appts := σ.appts.map fun b =>
          if b.id = id then { b with status := AppointmentStatus.no_show } else b,
        users := σ.users.map (noShowUserUpd cid) } cid = some 3 := by
    unfold clientNoShowCount findUser
    rw [show ({ σ with
        appts := σ.appts.map fun b =>
          if b.id = id then { b with status := AppointmentStatus.no_show } else b,
        users := σ.users.map (noShowUserUpd cid) } : SysState).users =
      σ.users.map (noShowUserUpd cid) from rfl]
    rw [findUser_map_noShowUpd, hfu, Option.map_some', Option.map_some']
    simp [noShowUserUpd, hu0id, hcnt]
  have hblocked : clientBlocked
      { σ with
        appts := σ.appts.map fun b =>
          if b.id = id then { b with status := AppointmentStatus.no_show } else b,
        users := σ.users.map (noShowUserUpd cid) } cid = true := by
    unfold clientBlocked findUser
    rw [show ({ σ with
        appts := σ.appts.map fun b =>
          if b.id = id then { b with status := AppointmentStatus.no_show } else b,
        users := σ.users.map (noShowUserUpd cid) } : SysState).users =
      σ.users.map (noShowUserUpd cid) from rfl]
    rw [findUser_map_noShowUpd, hfu, Option.map_some']
    simp [noShowUserUpd, hu0id, hcnt]
  refine ⟨hcount3, hblocked, ?_⟩
  intro σ'' hreach
  have hb'' : clientBlocked σ'' cid = true := blocked_reachable hreach hblocked
  refine ⟨hb'', ?_⟩
  intro inp uc hfuc
  have huc : uc.is_blocked = true := by
    unfold clientBlocked at hb''
    rw [hfuc] at hb''
    exact hb''
  exact create_blocked_error huc

/-- Witness for C5: in σ7c the client has two no-shows; marking their past
appointment no-show yields count 3, the blocked flag, and a blocked-client
error on their next booking attempt. -/
theorem no_show_blocking_witness :
    clientNoShowCount σ8c 2 = some 3 ∧ clientBlocked σ8c 2 = true ∧
    create_appointment σ8c inpB clientBlockedU = .error .blocked := by
  have H := no_show_blocking σ7c σ8c 0 2 staffU 400000000000 apptAns rfl rfl rfl
  exact ⟨H.1, H.2.1,
    (H.2.2 σ8c Relation.ReflTransGen.refl).2 inpB clientBlockedU rfl⟩

/-- C2: for valid intervals (end strictly after start on each side), the
three-clause overlap test of the code equals the canonical half-open
intersection test candidateStart < existingEnd AND existingStart <
candidateEnd; the test is symmetric in the two intervals, and intervals
sharing only a boundary point do not overlap. -/
theorem overlapTest_canonical_symm_boundary (s e aStart aEnd : Int)
    (hcand : s < e) (hex : aStart < aEnd) :
    (overlapTest aStart aEnd s e = true ↔ (s < aEnd ∧ aStart < e)) ∧
    overlapTest aStart aEnd s e = overlapTest s e aStart aEnd ∧
    ((e = aStart ∨ aEnd = s) → overlapTest aStart aEnd s e = false) := by
  refine ⟨⟨fun h => canonical_of_overlapTest hcand hex h,
    fun h => overlapTest_of_canonical h.1 h.2⟩, ?_, ?_⟩
  · rw [Bool.eq_iff_iff]
    constructor
    · intro h
      have hc := canonical_of_overlapTest hcand hex h
      exact overlapTest_of_canonical hc.2 hc.1
    · intro h
      have hc := canonical_of_overlapTest hex hcand h
      exact overlapTest_of_canonical hc.2 hc.1
  · intro h
    exact overlapTest_eq_false_of_not_canonical hcand hex (by omega)

/-- Witness for C2 at the concrete intervals (0,10) and (10,20): a booking
ending exactly when another begins does not conflict. -/
theorem overlapTest_canonical_symm_boundary_witness :
    (overlapTest 10 20 0 10 = true ↔ ((0:Int) < 20 ∧ (10:Int) < 10)) ∧
    overlapTest 10 20 0 10 = overlapTest 0 10 10 20 ∧
    (((10:Int) = 10 ∨ (20:Int) = 0) → overlapTest 10 20 0 10 = false) :=
  overlapTest_canonical_symm_boundary 0 10 10 20 (by decide) (by decide)

lemma update_ok_of {σ : SysState} {id : Nat} {patch : AppointmentUpdate}
    {u : User} {now : Int} {db : Appointment}
    (hf : findAppointment σ id = some db)
    (hperm : u.role = .admin ∨ db.client_id = u.id ∨ db.staff_id = u.id)
    (hcut : twoHoursUs ≤ db.start_time - now) :
    update_appointment σ id patch u now =
      .ok ({ σ with appts := σ.appts.map fun b =>
          if b.id = id then applyUpdate b patch else b }, applyUpdate db patch) := by
  unfold update_appointment
  simp only [hf]
  rw [if_neg (by
    intro hC
    rcases hperm with h | h | h
    exacts [hC.1 h, hC.2.1 h, hC.2.2 h])]
  rw [if_neg (by omega : ¬ db.start_time - now < twoHoursUs)]

/-- C6: given an existing appointment and a permitted caller (and, for
reschedule, SCHEDULED status, which it checks before the cutoff), update and
reschedule fail with the cutoff policy error exactly when the appointment's
current start time minus the call time is strictly below two hours; on that
error the operation returns no new state, leaving the appointment unchanged.
In particular a call 2 hours 1 second before the start passes the cutoff
check and a call after the start fails it. -/
theorem cutoff_policy (σ : SysState) (id : Nat) (patch : AppointmentUpdate)
    (r : AppointmentReschedule) (u : User) (now : Int) (a : Appointment)
    (hf : findAppointment σ id = some a)
    (hperm : u.role = .admin ∨ a.client_id = u.id ∨ a.staff_id = u.id)
    (hsched : a.status = .scheduled) :
    (update_appointment σ id patch u now = .error .cutoff ↔
      a.start_time - now < twoHoursUs) ∧
    (reschedule_appointment σ id r u now = .error .cutoff ↔
      a.start_time - now < twoHoursUs) := by
  have hpermNeg : ¬ (u.role ≠ .admin ∧ a.client_id ≠ u.id ∧ a.staff_id ≠ u.id) := by
    intro hC
    rcases hperm with h | h | h
    exacts [hC.1 h, hC.2.1 h, hC.2.2 h]
  constructor
  · constructor
    · intro h
      by_contra hcut
      rw [update_ok_of hf hperm (by omega)] at h
      exact absurd h (by simp)
    · intro hcut
      unfold update_appointment
      simp only [hf]
      rw [if_neg hpermNeg, if_pos hcut]
  · constructor
    · intro h
      by_contra hcut
      unfold reschedule_appointment at h
      simp only [hf] at h
      rw [if_neg hpermNeg, if_neg (by simp [hsched]), if_neg hcut] at h
      split at h
      · exact absurd h (by simp)
      · split at h
        · exact absurd h (by simp)
        · exact absurd h (by simp)
    · intro hcut
      unfold reschedule_appointment
      simp only [hf]
      rw [if_neg hpermNeg, if_neg (by simp [hsched]), if_pos hcut]

/-- Witness for C6 at the Monday 10:00 appointment of σ2c: a call exactly
2 hours 1 second before the start does not hit the cutoff error, a call
after the start does. -/
theorem cutoff_policy_witness :
    update_appointment σ2c 0 patchCancel clientU 374399000000 ≠
      .error .cutoff ∧
    update_appointment σ2c 0 patchCancel clientU 385200000001 =
      .error .cutoff := by
  constructor
  · intro h
    have := (cutoff_policy σ2c 0 patchCancel ⟨381600000000, 385200000000, none⟩
      clientU 374399000000 apptA rfl (Or.inr (Or.inl rfl)) rfl).1.mp h
    exact absurd this (by decide)
  · exact (cutoff_policy σ2c 0 patchCancel ⟨381600000000, 385200000000, none⟩
      clientU 385200000001 apptA rfl (Or.inr (Or.inl rfl)) rfl).1.mpr (by decide)

/-- C9: a successful update changes exactly the fields present in the patch
and nothing else: id, client_id and staff_id are untouched, absent fields
keep their old values, and every other appointment row is unchanged.  The
success condition consists only of existence, permission and the cutoff:
the statement holds for arbitrary availability windows and arbitrary other
appointments, so no conflict or availability re-validation takes place even
for a time-range patch. -/
theorem update_frame (σ : SysState) (id : Nat) (patch : AppointmentUpdate)
    (u : User) (now : Int) (a : Appointment)
    (hf : findAppointment σ id = some a)
    (hperm : u.role = .admin ∨ a.client_id = u.id ∨ a.staff_id = u.id)
    (hcut : twoHoursUs ≤ a.start_time - now) :
    update_appointment σ id patch u now =
      .ok ({ σ with appts := σ.appts.map fun b =>
          if b.id = id then applyUpdate b patch else b }, applyUpdate a patch) ∧
    (applyUpdate a patch).id = a.id ∧
    (applyUpdate a patch).client_id = a.client_id ∧
    (applyUpdate a patch).staff_id = a.staff_id ∧
    (applyUpdate a patch).start_time = patch.start_time.getD a.start_time ∧
    (applyUpdate a patch).end_time = patch.end_time.getD a.end_time ∧
    (applyUpdate a patch).status = patch.status.getD a.status ∧
    (applyUpdate a patch).notes =
      (match patch.notes with | some n => some n | none => a.notes) ∧
    ∀ b ∈ σ.appts, b.id ≠ id →
      (if b.id = id then applyUpdate b patch else b) = b :=
  ⟨update_ok_of hf hperm hcut, rfl, rfl, rfl, rfl, rfl, rfl, rfl,
    fun _ _ hb => if_neg hb⟩

/-- Witness for C9: updating apptB of σ2c with the 10:30-11:30 time patch
succeeds even though the new interval overlaps apptA, producing σ3c. -/
theorem update_frame_witness :
    update_appointment σ2c 1 patchMove clientU 0 = .ok (σ3c, apptBmoved) :=
  (update_frame σ2c 1 patchMove clientU 0 apptB rfl (Or.inr (Or.inl rfl))
    (by decide)).1

/-- C10: whatever status the request body carries, a successful create
stores a new appointment whose status is SCHEDULED and whose client_id is
the authenticated caller's id, appended to the table. -/
theorem create_ignores_status_and_client (σ σ' : SysState)
    (inp : AppointmentCreate) (u : User) (a : Appointment)
    (h : create_appointment σ inp u = .ok (σ', a)) :
    a.status = .scheduled ∧ a.client_id = u.id ∧ σ'.appts = σ.appts ++ [a] := by
  obtain ⟨_, _, ha, hσ⟩ := create_ok_elim h
  subst ha
  subst hσ
  exact ⟨rfl, rfl, rfl⟩

/-- Witness for C10: a create request carrying status COMPLETED still
yields a SCHEDULED appointment owned by the caller. -/
theorem create_ignores_status_witness :
    apptA.status = .scheduled ∧ apptA.client_id = clientU.id ∧
    σ1c.appts = σ0c.appts ++ [apptA] :=
  create_ignores_status_and_client σ0c σ1c inpACompletedStatus clientU apptA rfl

/-- C3 is violated by the code: create_appointment has no end-after-start
validation, so a request with end_time before start_time whose times-of-day
lie inside an availability window is accepted and stored, instead of being
rejected with a validation error. -/
theorem create_accepts_end_before_start :
    create_appointment σ0c inpRev clientU = .ok (σ9c, apptRev) ∧
    apptRev.end_time < apptRev.start_time ∧
    apptRev.status = .scheduled :=
  ⟨rfl, by decide, rfl⟩

/-- C8: rescheduling a SCHEDULED appointment more than two hours before its
start to its own current interval succeeds when the interval lies inside an
availability window and, per the spec's wording, conflicts only with the
appointment itself: the conflict query excludes the appointment's own id, so
it does not conflict with itself, and both the table and the appointment are
returned unchanged. -/
theorem reschedule_self_no_conflict (σ : SysState) (id : Nat) (u : User)
    (now : Int) (a : Appointment)
    (hnd : IdsNodup σ)
    (hf : findAppointment σ id = some a)
    (hperm : u.role = .admin ∨ a.client_id = u.id ∨ a.staff_id = u.id)
    (hsched : a.status = .scheduled)
    (hcut : twoHoursUs ≤ a.start_time - now)
    (hval : a.start_time < a.end_time)
    (hothers : ∀ b ∈ σ.appts, b.id ≠ id → b.staff_id = a.staff_id →
      b.status = .scheduled → b.start_time < b.end_time ∧
      ¬ (a.start_time < b.end_time ∧ b.start_time < a.end_time))
    (hcov : availabilityCovers σ.avails a.staff_id a.start_time a.end_time = true) :
    reschedule_appointment σ id ⟨a.start_time, a.end_time, none⟩ u now =
      .ok (σ, a) := by
  have hmem := find_appointment_mem hf
  have hconf : rescheduleConflict σ.appts a.staff_id id
      ⟨a.start_time, a.end_time, none⟩ = false := by
    unfold rescheduleConflict
    rw [List.any_eq_false]
    intro b hb hbT
    simp only [Bool.and_eq_true, decide_eq_true_eq] at hbT
    obtain ⟨⟨⟨hbs, hbid⟩, hbsc⟩, hbover⟩ := hbT
    obtain ⟨hbval, hbnc⟩ := hothers b hb hbid hbs hbsc
    exact hbnc (canonical_of_overlapTest hval hbval hbover)
  have hmap : (σ.appts.map fun b =>
      if b.id = id then rescheduleUpd ⟨a.start_time, a.end_time, none⟩ b else b) =
      σ.appts := by
    have hpt : ∀ b ∈ σ.appts,
        (if b.id = id then rescheduleUpd ⟨a.start_time, a.end_time, none⟩ b
          else b) = b := by
      intro b hb
      by_cases hbid : b.id = id
      · have hba : b = a := mem_unique_id hnd hb hmem.1 (by rw [hbid, hmem.2])
        subst hba
        rw [if_pos hbid]
        rfl
      · rw [if_neg hbid]
    rw [List.map_congr_left hpt, List.map_id']
  unfold reschedule_appointment
  simp only [hf]
  rw [if_neg (by
    intro hC
    rcases hperm with h | h | h
    exacts [hC.1 h, hC.2.1 h, hC.2.2 h])]
  rw [if_neg (by simp [hsched]), if_neg (by omega : ¬ a.start_time - now < twoHoursUs)]
  rw [if_neg (by rw [hconf]; exact Bool.false_ne_true)]
  rw [if_neg (by rw [hcov]; exact fun hC => hC rfl)]
  rw [hmap]
  rfl

/-- Witness for C8: rescheduling apptA of σ2c to its own 10:00-11:00
interval, two bookings present, succeeds and changes nothing. -/
theorem reschedule_self_no_conflict_witness :
    reschedule_appointment σ2c 0 ⟨apptA.start_time, apptA.end_time, none⟩
      clientU 0 = .ok (σ2c, apptA) :=
  reschedule_self_no_conflict σ2c 0 clientU 0 apptA
    (show σ2c.appts.Pairwise (fun a b => a.id ≠ b.id) by decide)
    rfl (Or.inr (Or.inl rfl)) rfl (by decide) (by decide)
    (by decide) (by decide)

lemma slot_loop_mem (fuel : Nat) (cur endt delta : Int)
    (booked : List Appointment) (s : TimeSlot)
    (hd : 1 ≤ delta) (hfuel : (endt - cur).toNat < fuel) :
    s ∈ slot_loop fuel cur endt delta booked ↔
      ∃ k : Nat, s.start_time = cur + k * delta ∧
        s.end_time = s.start_time + delta ∧ s.end_time ≤ endt ∧
        slotFree booked s.start_time s.end_time = true := by
  induction fuel generalizing cur with
  | zero => exact absurd hfuel (by omega)
  | succ n ih =>
    simp only [slot_loop]
    by_cases hc : cur + delta ≤ endt
    · rw [if_pos hc]
      constructor
      · intro hs
        rw [List.mem_append] at hs
        rcases hs with hs | hs
        · by_cases hfree : slotFree booked cur (cur + delta) = true
          · rw [if_pos hfree] at hs
            rw [List.mem_singleton] at hs
            subst hs
            exact ⟨0, by simp, rfl, hc, hfree⟩
          · rw [if_neg hfree] at hs
            exact absurd hs (by simp)
        · obtain ⟨k, h1, h2, h3, h4⟩ := (ih (cur + delta) (by omega)).mp hs
          refine ⟨k + 1, ?_, h2, h3, h4⟩
          rw [h1]
          push_cast
          ring
      · rintro ⟨k, h1, h2, h3, h4⟩
        rw [List.mem_append]
        cases k with
        | zero =>
          left
          have hs1 : s.start_time = cur := by rw [h1]; simp
          have hse : s = ⟨cur, cur + delta⟩ := by
            cases s
            simp only at hs1 h2
            simp [hs1, h2]
          rw [hs1, h2, hs1] at h4
          rw [if_pos h4, hse]
          exact List.mem_singleton.mpr rfl
        | succ j =>
          right
          refine (ih (cur + delta) (by omega)).mpr ⟨j, ?_, h2, h3, h4⟩
          rw [h1]
          push_cast
          ring
    · rw [if_neg hc]
      constructor
      · intro hs
        exact absurd hs (by simp)
      · rintro ⟨k, h1, h2, h3, h4⟩
        exfalso
        have hk : (0:Int) ≤ (k : Int) * delta :=
          mul_nonneg (Int.natCast_nonneg k) (by omega)
        omega

/-- C7: the slot loop walks a window from its start in fixed
duration-length steps and emits exactly the step-aligned slots that fit in
the window and pass the free test against every booked appointment; on the
concrete Monday 09:00-17:00 recurring window with no bookings the 60-minute
request yields exactly the eight slots 09:00 through 16:00, and with a
10:00-11:00 SCHEDULED booking it yields exactly those slots minus the one
overlapping 10:00-11:00 (the 09:00-10:00 slot is retained). -/
theorem slot_generation (fuel : Nat) (cur endt delta : Int)
    (booked : List Appointment) (s : TimeSlot)
    (hd : 1 ≤ delta) (hfuel : (endt - cur).toNat < fuel) :
    (s ∈ slot_loop fuel cur endt delta booked ↔
      ∃ k : Nat, s.start_time = cur + k * delta ∧
        s.end_time = s.start_time + delta ∧ s.end_time ≤ endt ∧
        slotFree booked s.start_time s.end_time = true) ∧
    get_available_slots σ0c 1 4 60 = some slots8 ∧
    get_available_slots σ1c 1 4 60 = some slots7 :=
  ⟨slot_loop_mem fuel cur endt delta booked s hd hfuel, by decide, by decide⟩

/-- Witness for C7: the statement instantiated at a small concrete walk
(window from 0 to 2, step 1), evaluating the 09:00-17:00 and booked-Monday
slot lists concretely. -/
theorem slot_generation_witness :
    get_available_slots σ0c 1 4 60 = some slots8 ∧
    get_available_slots σ1c 1 4 60 = some slots7 :=
  ⟨(slot_generation 3 0 2 1 [] ⟨0, 1⟩ (by decide) (by decide)).2.1,
    (slot_generation 3 0 2 1 [] ⟨0, 1⟩ (by decide) (by decide)).2.2⟩
